import Mathlib

/-!
Verification of the DiZzyFC combat-robot game against its specification.

The development shallowly embeds the two core modules:

* `main.py` — combat engine: `calculate_damage`, `Fighter.take_damage`,
  `Fighter.is_knocked_out`, and the per-tick body of `game_loop`
  (drive-command selection, the four per-limb attack timers, damage
  integration with the engine-level hit cooldown, and the win check).
* `sensor_reader.py` — `PiezoSensorReader`: `_map_damage`, the per-channel
  body of `_loop` (baseline filter, mask window, threshold boost, debounce,
  event emission), `mask_channels`, and the read-failure behaviour of the
  sampling loop.

Python floats are modelled as rationals (`ℚ`), Python ints as `Int`/`Nat`,
the per-channel dictionaries as total functions `Nat → _`, and the fallible
ADC read as an `Option Int`-valued function.  An exception escaping
`_read_adc` is modelled by the `Bool` failure flag threaded through
`sampler_tick_go` / `sampler_run`: state mutated before the raise is kept,
the remaining channels of the tick are skipped, and the loop terminates.
-/

/-! ## Combat engine (`main.py`) -/

/-- `STARTING_HP` from main.py. -/
def STARTING_HP : Int := 50

/-- `calculate_damage` from main.py: step function from aggregate force
reading to damage. -/
def calculate_damage (force_reading : Int) : Int :=
  if force_reading < 75 then 0
  else if force_reading < 200 then 3
  else if force_reading < 400 then 4
  else if force_reading < 600 then 5
  else if force_reading < 800 then 6
  else 7

/-- `Fighter.take_damage` from main.py: subtract and clamp at 0. -/
def take_damage (hp amount : Int) : Int :=
  let hp2 := hp - amount
  if hp2 < 0 then 0 else hp2

/-- `Fighter.is_knocked_out` from main.py: `hp <= 0`. -/
def is_knocked_out (hp : Int) : Bool :=
  decide (hp ≤ 0)

/-- The trace of hp values produced by a sequence of in-round
`take_damage` calls, each fed by `calculate_damage` on a force reading,
starting from a given hp. -/
def hpTraceFrom (hp : Int) : List Int → List Int
  | [] => [hp]
  | f :: fs => hp :: hpTraceFrom (take_damage hp (calculate_damage f)) fs

/-- The in-round hp trace starting from `STARTING_HP`. -/
def hpTrace (forces : List Int) : List Int :=
  hpTraceFrom STARTING_HP forces

/-- The drive command issued to a fighter's wheels each tick. -/
inductive DriveCmd where
  | left
  | right
  | stop
deriving DecidableEq

/-- Round winner, modelling the strings "Player 1" / "Player 2" returned by
`game_loop`. -/
inductive Winner where
  | player1
  | player2
deriving DecidableEq

/-- Movement block of `game_loop` (main.py lines 281-286 and 310-315):
`if button_pressed(left): move_left() elif button_pressed(right):
move_right() else: stop()`. -/
def driveCommand (btnLeft btnRight : Bool) : DriveCmd :=
  if btnLeft then DriveCmd.left
  else if btnRight then DriveCmd.right
  else DriveCmd.stop

/-- Per-limb attack state of `game_loop`: the `*_attacking` flag and the
`*_timer` start timestamp for one arm. -/
structure LimbState where
  attacking : Bool
  timer : ℚ
deriving DecidableEq

/-- `attack_duration = 0.15` from `game_loop`. -/
def attack_duration : ℚ := 3 / 20

/-- `hit_cooldown = 0.3` from `game_loop`. -/
def hit_cooldown : ℚ := 3 / 10

/-- One tick of one limb's attack timer block in `game_loop`
(lines 289-306): trigger when the attack button is pressed and the limb is
not attacking (commanding the attack angle, recording the timer), then
reset to neutral once the elapsed time strictly exceeds `attack_duration`.
Returns (new state, triggered-this-tick, reset-to-neutral-this-tick). -/
def limbStep (dur : ℚ) (s : LimbState) (pressed : Bool) (now : ℚ) :
    LimbState × Bool × Bool :=
  let trig : Bool := pressed && !s.attacking
  let s1 : LimbState := if trig then { attacking := true, timer := now } else s
  if s1.attacking = true ∧ now - s1.timer > dur then
    ({ s1 with attacking := false }, trig, true)
  else
    (s1, trig, false)

/-- Iterate `limbStep` over a list of (pressed, current_time) ticks,
collecting the (triggered, reset) outputs of each tick. -/
def limbRun (dur : ℚ) : LimbState → List (Bool × ℚ) → LimbState × List (Bool × Bool)
  | s, [] => (s, [])
  | s, (p, t) :: rest =>
    let r := limbStep dur s p t
    let rr := limbRun dur r.1 rest
    (rr.1, (r.2.1, r.2.2) :: rr.2)

/-- Win-condition block of `game_loop` (lines 354-371): player 1 is checked
for knockout first; the returned value is the winner's identity. -/
def winCheck (hp1 hp2 : Int) : Option Winner :=
  if is_knocked_out hp1 then some Winner.player2
  else if is_knocked_out hp2 then some Winner.player1
  else none

/-- All inputs read during one iteration of `game_loop`: the eight button
levels, the two aggregated force readings (`Fighter.read_force`), and
`current_time`. -/
structure CombatInputs where
  p1Left : Bool
  p1Right : Bool
  p1AtkLeft : Bool
  p1AtkRight : Bool
  p2Left : Bool
  p2Right : Bool
  p2AtkLeft : Bool
  p2AtkRight : Bool
  p1Force : Int
  p2Force : Int
  time : ℚ
deriving DecidableEq

/-- Mutable state carried across `game_loop` iterations: both fighters'
hp, the four limb timers, and the two engine-level last-hit times. -/
structure CombatState where
  hp1 : Int
  hp2 : Int
  p1LimbL : LimbState
  p1LimbR : LimbState
  p2LimbL : LimbState
  p2LimbR : LimbState
  p1LastHit : ℚ
  p2LastHit : ℚ
deriving DecidableEq

/-- Commands issued during one `game_loop` iteration that are visible to
the outside: the two drive commands and the win-check result (the value
returned from the loop, when some fighter is knocked out). -/
structure TickOutput where
  drive1 : DriveCmd
  drive2 : DriveCmd
  winner : Option Winner
deriving DecidableEq

/-- One full iteration of `game_loop` (lines 276-374): movement commands,
the four limb attack timers, damage integration under the engine-level
`hit_cooldown`, and the win check. -/
def gameTick (s : CombatState) (i : CombatInputs) : CombatState × TickOutput :=
  let drive1 := driveCommand i.p1Left i.p1Right
  let l1 := (limbStep attack_duration s.p1LimbL i.p1AtkLeft i.time).1
  let r1 := (limbStep attack_duration s.p1LimbR i.p1AtkRight i.time).1
  let drive2 := driveCommand i.p2Left i.p2Right
  let l2 := (limbStep attack_duration s.p2LimbL i.p2AtkLeft i.time).1
  let r2 := (limbStep attack_duration s.p2LimbR i.p2AtkRight i.time).1
  let p1d : Int × ℚ :=
    if i.time - s.p1LastHit > hit_cooldown then
      let dmg := calculate_damage i.p1Force
      if dmg > 0 then (take_damage s.hp1 dmg, i.time) else (s.hp1, s.p1LastHit)
    else (s.hp1, s.p1LastHit)
  let p2d : Int × ℚ :=
    if i.time - s.p2LastHit > hit_cooldown then
      let dmg := calculate_damage i.p2Force
      if dmg > 0 then (take_damage s.hp2 dmg, i.time) else (s.hp2, s.p2LastHit)
    else (s.hp2, s.p2LastHit)
  ({ hp1 := p1d.1, hp2 := p2d.1,
     p1LimbL := l1, p1LimbR := r1, p2LimbL := l2, p2LimbR := r2,
     p1LastHit := p1d.2, p2LastHit := p2d.2 },
   { drive1 := drive1, drive2 := drive2, winner := winCheck p1d.1 p2d.1 })

/-- `game_loop` run over a finite trace of per-tick inputs: the loop exits
with the winner's identity as soon as the win check fires, carrying the
final fighter state; `none` if the trace is exhausted without a knockout. -/
def gameLoopRun (s : CombatState) : List CombatInputs → CombatState × Option Winner
  | [] => (s, none)
  | i :: rest =>
    match (gameTick s i).2.winner with
    | some w => ((gameTick s i).1, some w)
    | none => gameLoopRun (gameTick s i).1 rest

/-! ## Sensor sampler (`sensor_reader.py`) -/

/-- `PiezoSensorReader.MIN_DAMAGE = 5.0`. -/
def MIN_DAMAGE : ℚ := 5

/-- `PiezoSensorReader.MAX_DAMAGE = 50.0`. -/
def MAX_DAMAGE : ℚ := 50

/-- `PiezoSensorReader.DAMAGE_DIVISOR = 10.0`. -/
def DAMAGE_DIVISOR : ℚ := 10

/-- `PiezoSensorReader._map_damage`: linear ramp above threshold, clamped
to `[MIN_DAMAGE, MAX_DAMAGE]`. -/
def map_damage (val thr : ℚ) : ℚ :=
  let delta : ℚ := max 0 (val - thr)
  let dmg : ℚ := delta / DAMAGE_DIVISOR
  let dmg2 : ℚ := if dmg < MIN_DAMAGE then MIN_DAMAGE else dmg
  if dmg2 > MAX_DAMAGE then MAX_DAMAGE else dmg2

/-- Event dict appended by `PiezoSensorReader._loop`. -/
structure HitEvent where
  channel : Nat
  value : Int
  signal : ℚ
  damage : ℚ
  timestamp_ms : Int
deriving DecidableEq

/-- Sampler configuration fields used by the per-tick algorithm. -/
structure SamplerConfig where
  threshold : Int
  hit_debounce_ms : Int
  baseline_alpha : ℚ
deriving DecidableEq

/-- Per-channel dictionaries of `PiezoSensorReader`, modelled as total
functions from channel number. -/
structure SamplerState where
  baseline : Nat → ℚ
  last_hit_ms : Nat → Int
  latest : Nat → Int
  mask_until_ms : Nat → Int
  boost_extra : Nat → Int
  boost_until_ms : Nat → Int

/-- Pointwise dictionary update. -/
def upd {α : Type} (f : Nat → α) (k : Nat) (v : α) : Nat → α :=
  fun c => if c = k then v else f c

/-- The high-pass-filtered signal of one channel on one tick
(`_loop` lines 187-192): when `0 ≤ α < 1` the baseline is advanced to
`α·b + (1-α)·raw` and the signal is raw minus the advanced baseline;
otherwise the signal is the raw value. -/
def filtered_signal (cfg : SamplerConfig) (s : SamplerState) (ch : Nat) (val : Int) : ℚ :=
  if 0 ≤ cfg.baseline_alpha ∧ cfg.baseline_alpha < 1 then
    (val : ℚ) - (cfg.baseline_alpha * s.baseline ch + (1 - cfg.baseline_alpha) * (val : ℚ))
  else (val : ℚ)

/-- The effective threshold of one channel on one tick
(`_loop` lines 198-201): base threshold plus the boost extra, where the
extra counts as zero once `tick_ms` passes the boost expiry. -/
def effective_threshold (cfg : SamplerConfig) (s : SamplerState) (ch : Nat) (tick_ms : Int) : Int :=
  cfg.threshold + (if tick_ms > s.boost_until_ms ch then 0 else s.boost_extra ch)

/-- Per-channel body of `PiezoSensorReader._loop` (lines 183-214) for one
successfully read value: update `latest` and the baseline, skip entirely
while masked, expire the boost, then threshold + debounce and possibly
emit a `HitEvent`. -/
def process_channel (cfg : SamplerConfig) (s : SamplerState) (ch : Nat) (val : Int)
    (tick_ms : Int) : SamplerState × Option HitEvent :=
  let newBaseline : Nat → ℚ :=
    if 0 ≤ cfg.baseline_alpha ∧ cfg.baseline_alpha < 1 then
      upd s.baseline ch
        (cfg.baseline_alpha * s.baseline ch + (1 - cfg.baseline_alpha) * (val : ℚ))
    else s.baseline
  let signal : ℚ := filtered_signal cfg s ch val
  let s2 : SamplerState := { s with latest := upd s.latest ch val, baseline := newBaseline }
  if tick_ms < s.mask_until_ms ch then (s2, none)
  else
    let newBoost : Nat → Int :=
      if tick_ms > s.boost_until_ms ch then upd s.boost_extra ch 0 else s.boost_extra
    let s3 : SamplerState := { s2 with boost_extra := newBoost }
    let eff_thr : Int := effective_threshold cfg s ch tick_ms
    if signal > (eff_thr : ℚ) then
      if tick_ms - s.last_hit_ms ch ≥ cfg.hit_debounce_ms then
        ({ s3 with last_hit_ms := upd s.last_hit_ms ch tick_ms },
         some { channel := ch, value := val, signal := signal,
                damage := map_damage signal (eff_thr : ℚ), timestamp_ms := tick_ms })
      else (s3, none)
    else (s3, none)

/-- The per-tick channel loop of `_loop`.  `read ch = none` models
`_read_adc` raising: state mutated so far and events appended so far are
kept, the remaining channels of the tick are not sampled, and the failure
flag is set (the exception escapes the loop). -/
def sampler_tick_go (cfg : SamplerConfig) (read : Nat → Option Int) (tick_ms : Int) :
    SamplerState → List Nat → SamplerState × List HitEvent × Bool
  | s, [] => (s, [], false)
  | s, ch :: rest =>
    match read ch with
    | none => (s, [], true)
    | some val =>
      let r := process_channel cfg s ch val tick_ms
      let rr := sampler_tick_go cfg read tick_ms r.1 rest
      (rr.1, r.2.toList ++ rr.2.1, rr.2.2)

/-- One sampling tick as seen from outside: its timestamp and the ADC read
behaviour during it. -/
structure TickInput where
  tick_ms : Int
  read : Nat → Option Int

/-- The sampling loop of `PiezoSensorReader._loop` over a finite tick
trace, accumulating all emitted events oldest-first.  A read failure
terminates the loop (the background thread dies), keeping whatever was
emitted up to that point. -/
def sampler_run (cfg : SamplerConfig) (channels : List Nat) :
    SamplerState → List TickInput → SamplerState × List HitEvent
  | s, [] => (s, [])
  | s, t :: rest =>
    let r := sampler_tick_go cfg t.read t.tick_ms s channels
    if r.2.2 then (r.1, r.2.1)
    else
      let rr := sampler_run cfg channels r.1 rest
      (rr.1, r.2.1 ++ rr.2)

/-- `PiezoSensorReader.mask_channels`: for each given channel, raise its
mask-until time to at least `now + duration_ms` (never lowering it). -/
def mask_channels : SamplerState → List Nat → Int → Int → SamplerState
  | s, [], _, _ => s
  | s, ch :: rest, d, now =>
    mask_channels
      { s with mask_until_ms := upd s.mask_until_ms ch (max (s.mask_until_ms ch) (now + d)) }
      rest d now

/-- The sub-list of events belonging to one channel, in emission order. -/
def eventsOn (ch : Nat) (es : List HitEvent) : List HitEvent :=
  es.filter fun e => e.channel == ch

/-- `gapSep d t es`: every event in `es` is at least `d` later than its
predecessor, anchored at time `t` before the first event. -/
def gapSep (d : Int) : Int → List HitEvent → Prop
  | _, [] => True
  | t, e :: es => e.timestamp_ms - t ≥ d ∧ gapSep d e.timestamp_ms es

/-- The timestamp of the last event of a list, defaulting to the anchor. -/
def lastAnchor : Int → List HitEvent → Int
  | t, [] => t
  | _, e :: es => lastAnchor e.timestamp_ms es

/-! ## Concrete instances used by counterexamples and witnesses -/

/-- A sampler configuration: threshold 100, no debounce, `baseline_alpha`
outside `[0,1)` so the filtered signal is the raw value. -/
def cfg0 : SamplerConfig :=
  { threshold := 100, hit_debounce_ms := 0, baseline_alpha := 1 }

/-- The all-zero sampler state (fresh construction). -/
def s0 : SamplerState :=
  { baseline := fun _ => 0, last_hit_ms := fun _ => 0, latest := fun _ => 0,
    mask_until_ms := fun _ => 0, boost_extra := fun _ => 0, boost_until_ms := fun _ => 0 }

/-- A tick at 500 ms whose reads all return 1023. -/
def tk1 : TickInput := { tick_ms := 500, read := fun _ => some 1023 }

/-- A tick at 2000 ms whose reads all return 1023. -/
def tk2 : TickInput := { tick_ms := 2000, read := fun _ => some 1023 }

/-- The hit event produced on channel 0 by `tk2` after a mask window from
0 ms to 1000 ms has lapsed. -/
def wit_e0 : HitEvent :=
  { channel := 0, value := 1023, signal := 1023, damage := 50, timestamp_ms := 2000 }

/-- A read behaviour failing on channel 0 and succeeding elsewhere. -/
def read_fail0 : Nat → Option Int := fun ch => if ch = 0 then none else some 500

/-- A combat state: both fighters at 5 hp, limbs idle, cooldowns elapsed. -/
def cs1 : CombatState :=
  { hp1 := 5, hp2 := 5, p1LimbL := ⟨false, 0⟩, p1LimbR := ⟨false, 0⟩,
    p2LimbL := ⟨false, 0⟩, p2LimbR := ⟨false, 0⟩, p1LastHit := -1, p2LastHit := -1 }

/-- A tick input at time 0 with maximal force readings on both fighters. -/
def inKO : CombatInputs :=
  { p1Left := false, p1Right := false, p1AtkLeft := false, p1AtkRight := false,
    p2Left := false, p2Right := false, p2AtkLeft := false, p2AtkRight := false,
    p1Force := 900, p2Force := 900, time := 0 }

/-- `cs1` with player 2 at full health. -/
def s5 : CombatState := { cs1 with hp2 := 50 }

/-- Lethal force on player 1's sensors only. -/
def iA : CombatInputs := { inKO with p2Force := 0 }

/-- Lethal force on player 1's sensors, moderate force on player 2's. -/
def iB : CombatInputs := { inKO with p2Force := 300 }

/-- Player 1 holding left and right drive buttons simultaneously, nothing
else pressed, no force. -/
def inBoth : CombatInputs :=
  { inKO with p1Left := true, p1Right := true, p1Force := 0, p2Force := 0 }

/-! ## Theorems -/

/-! ### C1 — simultaneous left+right drive input -/

/-- Claim C1, counterexample: with both drive buttons pressed
simultaneously, `game_loop` commands the drive LEFT (the `elif` chain gives
the left button priority), a directional state rather than the stop
command the claim requires. -/
theorem claim_C1_cex :
    (gameTick cs1 inBoth).2.drive1 = DriveCmd.left ∧ DriveCmd.left ≠ DriveCmd.stop := by
  constructor
  · rfl
  · intro h
    exact DriveCmd.noConfusion h

/-- Claim C1 as amended: the per-tick drive command is always one of the
three defined commands, with the stop command issued exactly when neither
drive button is pressed; when both are pressed simultaneously the left
button takes priority and the drive is commanded left. -/
theorem claim_C1_amended :
    (∀ l r : Bool, driveCommand l r = DriveCmd.stop ↔ (l = false ∧ r = false)) ∧
    driveCommand true true = DriveCmd.left := by
  constructor
  · intro l r
    cases l <;> cases r <;> simp [driveCommand]
  · rfl

/-! ### C3 — hp invariant -/

theorem calculate_damage_nonneg (f : Int) : 0 ≤ calculate_damage f := by
  unfold calculate_damage
  split_ifs <;> omega

theorem take_damage_nonneg (hp a : Int) : 0 ≤ take_damage hp a := by
  simp only [take_damage]
  split_ifs <;> omega

theorem take_damage_le (hp a : Int) (h0 : 0 ≤ hp) (ha : 0 ≤ a) :
    take_damage hp a ≤ hp := by
  simp only [take_damage]
  split_ifs <;> omega

theorem hpTraceFrom_head (l : List Int) (hp : Int) :
    ∃ t, hpTraceFrom hp l = hp :: t := by
  cases l <;> simp [hpTraceFrom]

theorem hpTraceFrom_inv (l : List Int) :
    ∀ hp : Int, 0 ≤ hp →
      List.Chain' (fun a b => b ≤ a) (hpTraceFrom hp l) ∧
      ∀ x ∈ hpTraceFrom hp l, 0 ≤ x ∧ x ≤ hp := by
  induction l with
  | nil =>
    intro hp h0
    refine ⟨by simp [hpTraceFrom], ?_⟩
    intro x hx
    simp [hpTraceFrom] at hx
    omega
  | cons f fs ih =>
    intro hp h0
    have hnn : 0 ≤ take_damage hp (calculate_damage f) := take_damage_nonneg _ _
    have hle : take_damage hp (calculate_damage f) ≤ hp :=
      take_damage_le _ _ h0 (calculate_damage_nonneg f)
    obtain ⟨ihc, ihm⟩ := ih _ hnn
    obtain ⟨tl, htl⟩ := hpTraceFrom_head fs (take_damage hp (calculate_damage f))
    constructor
    · show List.Chain' _ (hp :: hpTraceFrom (take_damage hp (calculate_damage f)) fs)
      rw [htl]
      rw [htl] at ihc
      exact List.Chain'.cons hle ihc
    · intro x hx
      simp only [hpTraceFrom, List.mem_cons] at hx
      rcases hx with rfl | hx
      · exact ⟨h0, le_refl x⟩
      · obtain ⟨h1, h2⟩ := ihm x hx
        exact ⟨h1, le_trans h2 hle⟩

/-- Claim C3: along any in-round sequence of `take_damage` calls (each
amount produced by `calculate_damage` on a force reading), hp is
monotonically non-increasing, never negative, and never exceeds
`STARTING_HP`. -/
theorem claim_C3 (forces : List Int) :
    List.Chain' (fun a b => b ≤ a) (hpTrace forces) ∧
    ∀ hp ∈ hpTrace forces, 0 ≤ hp ∧ hp ≤ STARTING_HP := by
  have h := hpTraceFrom_inv forces STARTING_HP (by unfold STARTING_HP; omega)
  exact ⟨h.1, h.2⟩

/-- Witness for C3 on the concrete force trace `[300, 900]`, whose hp
trace is `[50, 46, 39]`. -/
theorem claim_C3_witness :
    (39 : Int) ∈ hpTrace [300, 900] ∧ (0 ≤ (39 : Int) ∧ (39 : Int) ≤ STARTING_HP) :=
  ⟨by decide, (claim_C3 [300, 900]).2 39 (by decide)⟩

/-! ### C4 — damage mappings -/

/-- Claim C4, counterexample: the engine's step function produces the
damage value 3 at force reading 100, which lies below the sampler's
`MIN_DAMAGE = 5`; hence not every produced damage value lies in
`[MIN_DAMAGE, MAX_DAMAGE]`. -/
theorem claim_C4_cex :
    calculate_damage 100 = 3 ∧ ¬ (MIN_DAMAGE ≤ ((calculate_damage 100 : Int) : ℚ)) := by
  constructor
  · rfl
  · norm_num [calculate_damage, MIN_DAMAGE]

theorem calculate_damage_mono (x y : Int) (h : x ≤ y) :
    calculate_damage x ≤ calculate_damage y := by
  unfold calculate_damage
  split_ifs <;> omega

theorem calculate_damage_range (x : Int) :
    0 ≤ calculate_damage x ∧ calculate_damage x ≤ 7 := by
  unfold calculate_damage
  split_ifs <;> omega

theorem map_damage_mono (v w thr : ℚ) (h : v ≤ w) :
    map_damage v thr ≤ map_damage w thr := by
  have hd : max 0 (v - thr) ≤ max 0 (w - thr) :=
    max_le_max (le_refl 0) (by linarith)
  simp only [map_damage, MIN_DAMAGE, MAX_DAMAGE, DAMAGE_DIVISOR]
  split_ifs <;> linarith

theorem map_damage_range (v thr : ℚ) :
    MIN_DAMAGE ≤ map_damage v thr ∧ map_damage v thr ≤ MAX_DAMAGE := by
  simp only [map_damage, MIN_DAMAGE, MAX_DAMAGE, DAMAGE_DIVISOR]
  split_ifs <;> constructor <;> linarith

/-- Claim C4 as amended: both damage mappings are monotone non-decreasing
in their signal argument; the sampler's `_map_damage` always lands in
`[MIN_DAMAGE, MAX_DAMAGE]`, while the engine's `calculate_damage` lands in
its own range `[0, 7]` (not in `[MIN_DAMAGE, MAX_DAMAGE]`). -/
theorem claim_C4_amended :
    (∀ x y : Int, x ≤ y → calculate_damage x ≤ calculate_damage y) ∧
    (∀ x : Int, 0 ≤ calculate_damage x ∧ calculate_damage x ≤ 7) ∧
    (∀ v w thr : ℚ, v ≤ w → map_damage v thr ≤ map_damage w thr) ∧
    (∀ v thr : ℚ, MIN_DAMAGE ≤ map_damage v thr ∧ map_damage v thr ≤ MAX_DAMAGE) :=
  ⟨calculate_damage_mono, calculate_damage_range, map_damage_mono, map_damage_range⟩

/-- Witness for C4 as amended at concrete inputs. -/
theorem claim_C4_witness :
    calculate_damage 100 ≤ calculate_damage 700 ∧ map_damage 3 1 ≤ map_damage 800 1 :=
  ⟨claim_C4_amended.1 100 700 (by norm_num), claim_C4_amended.2.2.1 3 800 1 (by norm_num)⟩

/-! ### C10 — simultaneous double knockout -/

theorem winCheck_ko1 (hp1 hp2 : Int) (h : hp1 ≤ 0) :
    winCheck hp1 hp2 = some Winner.player2 := by
  simp [winCheck, is_knocked_out, h]

/-- Claim C10: if both fighters' hp are 0 (or below) after the damage
phase of the same tick, the win check resolves the tie in favour of
Player 2, because `game_loop` tests `p1.is_knocked_out()` first. -/
theorem claim_C10 (s : CombatState) (i : CombatInputs)
    (h1 : (gameTick s i).1.hp1 ≤ 0) (h2 : (gameTick s i).1.hp2 ≤ 0) :
    (gameTick s i).2.winner = some Winner.player2 := by
  have key : (gameTick s i).2.winner = winCheck (gameTick s i).1.hp1 (gameTick s i).1.hp2 := rfl
  rw [key]
  exact winCheck_ko1 _ _ h1

/-- Witness for C10: from 5 hp each, force 900 on both sensors drops both
fighters to 0 in one tick; the winner is Player 2. -/
theorem claim_C10_witness :
    (gameTick cs1 inKO).1.hp1 ≤ 0 ∧ (gameTick cs1 inKO).1.hp2 ≤ 0 ∧
    (gameTick cs1 inKO).2.winner = some Winner.player2 :=
  ⟨by norm_num [gameTick, cs1, inKO, hit_cooldown, take_damage, calculate_damage],
   by norm_num [gameTick, cs1, inKO, hit_cooldown, take_damage, calculate_damage],
   claim_C10 cs1 inKO
     (by norm_num [gameTick, cs1, inKO, hit_cooldown, take_damage, calculate_damage])
     (by norm_num [gameTick, cs1, inKO, hit_cooldown, take_damage, calculate_damage])⟩

/-! ### Per-channel structural lemmas for the sampler -/

theorem pc_mask_const (cfg : SamplerConfig) (s : SamplerState) (ch : Nat) (val : Int)
    (t : Int) : (process_channel cfg s ch val t).1.mask_until_ms = s.mask_until_ms := by
  simp only [process_channel]
  split_ifs <;> rfl

theorem pc_cases (cfg : SamplerConfig) (s : SamplerState) (ch : Nat) (val : Int) (t : Int) :
    ((process_channel cfg s ch val t).2 = none ∧
      (process_channel cfg s ch val t).1.last_hit_ms = s.last_hit_ms) ∨
    (∃ e, (process_channel cfg s ch val t).2 = some e ∧
      e.channel = ch ∧ e.timestamp_ms = t ∧
      t - s.last_hit_ms ch ≥ cfg.hit_debounce_ms ∧
      s.mask_until_ms ch ≤ t ∧
      (process_channel cfg s ch val t).1.last_hit_ms = upd s.last_hit_ms ch t) := by
  simp only [process_channel]
  split_ifs <;>
    first
      | exact Or.inl ⟨rfl, rfl⟩
      | exact Or.inr ⟨_, rfl, rfl, rfl, by assumption, by omega, rfl⟩

/-! ### C9 — below effective threshold means no event -/

/-- Claim C9: on any tick, a channel whose high-pass-filtered signal stays
below the effective threshold (base threshold plus unexpired boost, an
expired boost counting as zero) produces no hit event. -/
theorem claim_C9 (cfg : SamplerConfig) (s : SamplerState) (ch : Nat) (val : Int)
    (tick_ms : Int)
    (h : filtered_signal cfg s ch val < ((effective_threshold cfg s ch tick_ms : Int) : ℚ)) :
    (process_channel cfg s ch val tick_ms).2 = none := by
  simp only [process_channel]
  split_ifs <;> first | rfl | (exfalso; linarith)

/-- Witness for C9: threshold 100, raw value 50, fresh state — the signal
50 is below the effective threshold 100 and no event is produced. -/
theorem claim_C9_witness :
    filtered_signal cfg0 s0 0 50 < ((effective_threshold cfg0 s0 0 0 : Int) : ℚ) ∧
    (process_channel cfg0 s0 0 50 0).2 = none :=
  ⟨by norm_num [filtered_signal, effective_threshold, cfg0, s0],
   claim_C9 cfg0 s0 0 50 0 (by norm_num [filtered_signal, effective_threshold, cfg0, s0])⟩

/-! ### C2 — read failure is fatal, not skipped -/

/-- Claim C2, counterexample: with channels `[0, 1]`, a read failure on
channel 0 sets the failure flag (the exception escapes the loop) and
channel 1 is never sampled on that tick (`latest 1` stays 0) even though
its read would have returned 500 — sampling of the remaining channels does
not continue. -/
theorem claim_C2_cex :
    (sampler_tick_go cfg0 read_fail0 0 s0 [0, 1]).2.2 = true ∧
    (sampler_tick_go cfg0 read_fail0 0 s0 [0, 1]).1.latest 1 = 0 ∧
    read_fail0 1 = some 500 := by
  refine ⟨?_, ?_, ?_⟩ <;> simp [sampler_tick_go, read_fail0, s0]

/-- Claim C2 as amended: a read failure on a channel is fatal: the
channels after the failing one are not sampled on that tick, the failure
flag is raised, and the sampling loop terminates — no later tick runs. -/
theorem claim_C2_amended (cfg : SamplerConfig) (t : Int) (s : SamplerState)
    (pre : List Nat) (ch : Nat) (post : List Nat) (read : Nat → Option Int)
    (hpre : ∀ c ∈ pre, (read c).isSome = true) (hch : read ch = none) :
    sampler_tick_go cfg read t s (pre ++ ch :: post)
      = ((sampler_tick_go cfg read t s pre).1,
         (sampler_tick_go cfg read t s pre).2.1, true) ∧
    ∀ ticks : List TickInput,
      sampler_run cfg (pre ++ ch :: post) s
          (({ tick_ms := t, read := read } : TickInput) :: ticks)
        = ((sampler_tick_go cfg read t s (pre ++ ch :: post)).1,
           (sampler_tick_go cfg read t s (pre ++ ch :: post)).2.1) := by
  have main : ∀ (l : List Nat) (st : SamplerState), (∀ c ∈ l, (read c).isSome = true) →
      sampler_tick_go cfg read t st (l ++ ch :: post)
        = ((sampler_tick_go cfg read t st l).1,
           (sampler_tick_go cfg read t st l).2.1, true) := by
    intro l
    induction l with
    | nil =>
      intro st _
      simp [sampler_tick_go, hch]
    | cons c cs ih =>
      intro st hp
      have hc : (read c).isSome = true := hp c (List.mem_cons_self c cs)
      obtain ⟨v, hv⟩ := Option.isSome_iff_exists.mp hc
      have hcs : ∀ x ∈ cs, (read x).isSome = true :=
        fun x hx => hp x (List.mem_cons_of_mem c hx)
      simp only [List.cons_append, sampler_tick_go, hv, List.append_eq]
      rw [ih _ hcs]
  have hfail := main pre s hpre
  refine ⟨hfail, ?_⟩
  intro ticks
  simp only [sampler_run]
  rw [hfail]
  simp

/-- Witness for C2 as amended: channels `[1, 0]`, a read failing on
channel 0 only. -/
theorem claim_C2_witness :
    (∀ c ∈ [1], (read_fail0 c).isSome = true) ∧ read_fail0 0 = none ∧
    sampler_tick_go cfg0 read_fail0 0 s0 ([1] ++ 0 :: [])
      = ((sampler_tick_go cfg0 read_fail0 0 s0 [1]).1,
         (sampler_tick_go cfg0 read_fail0 0 s0 [1]).2.1, true) :=
  ⟨by decide, by decide,
   (claim_C2_amended cfg0 0 s0 [1] 0 [] read_fail0 (by decide) (by decide)).1⟩

/-! ### Event-list helper lemmas -/

theorem eventsOn_append (ch : Nat) (xs ys : List HitEvent) :
    eventsOn ch (xs ++ ys) = eventsOn ch xs ++ eventsOn ch ys :=
  List.filter_append _ _

theorem eventsOn_cons_self (ch : Nat) (e : HitEvent) (es : List HitEvent)
    (h : e.channel = ch) : eventsOn ch (e :: es) = e :: eventsOn ch es := by
  simp [eventsOn, h]

theorem eventsOn_cons_other (ch : Nat) (e : HitEvent) (es : List HitEvent)
    (h : ¬ e.channel = ch) : eventsOn ch (e :: es) = eventsOn ch es := by
  simp [eventsOn, h]

theorem gapSep_append (d : Int) : ∀ (xs : List HitEvent) (t : Int) (ys : List HitEvent),
    gapSep d t xs → gapSep d (lastAnchor t xs) ys → gapSep d t (xs ++ ys) := by
  intro xs
  induction xs with
  | nil =>
    intro t ys _ h2
    simpa [lastAnchor] using h2
  | cons e es ih =>
    intro t ys h1 h2
    rw [List.cons_append]
    exact ⟨h1.1, ih e.timestamp_ms ys h1.2 h2⟩

theorem lastAnchor_append : ∀ (xs : List HitEvent) (t : Int) (ys : List HitEvent),
    lastAnchor t (xs ++ ys) = lastAnchor (lastAnchor t xs) ys := by
  intro xs
  induction xs with
  | nil => intro t ys; rfl
  | cons e es ih =>
    intro t ys
    rw [List.cons_append]
    exact ih e.timestamp_ms ys

theorem gapSep_chain (d : Int) : ∀ (es : List HitEvent) (t : Int), gapSep d t es →
    List.Chain' (fun a b => b.timestamp_ms - a.timestamp_ms ≥ d) es := by
  intro es
  induction es with
  | nil => intro t _; exact List.chain'_nil
  | cons e tail ih =>
    intro t h
    have hc := ih e.timestamp_ms h.2
    cases tail with
    | nil => exact List.chain'_singleton e
    | cons f fs => exact List.Chain'.cons h.2.1 hc

/-! ### Debounce invariant through the tick loop -/

theorem go_gap (cfg : SamplerConfig) (read : Nat → Option Int) (t : Int) (ch : Nat) :
    ∀ (chans : List Nat) (s : SamplerState),
      gapSep cfg.hit_debounce_ms (s.last_hit_ms ch)
        (eventsOn ch (sampler_tick_go cfg read t s chans).2.1) ∧
      (sampler_tick_go cfg read t s chans).1.last_hit_ms ch
        = lastAnchor (s.last_hit_ms ch)
            (eventsOn ch (sampler_tick_go cfg read t s chans).2.1) := by
  intro chans
  induction chans with
  | nil =>
    intro s
    simp [sampler_tick_go, eventsOn, gapSep, lastAnchor]
  | cons c cs ih =>
    intro s
    cases hr : read c with
    | none =>
      simp [sampler_tick_go, hr, eventsOn, gapSep, lastAnchor]
    | some val =>
      have hgo : sampler_tick_go cfg read t s (c :: cs)
          = ((sampler_tick_go cfg read t (process_channel cfg s c val t).1 cs).1,
             (process_channel cfg s c val t).2.toList
               ++ (sampler_tick_go cfg read t (process_channel cfg s c val t).1 cs).2.1,
             (sampler_tick_go cfg read t (process_channel cfg s c val t).1 cs).2.2) := by
        simp [sampler_tick_go, hr]
      rw [hgo]
      have hrec := ih (process_channel cfg s c val t).1
      rcases pc_cases cfg s c val t with ⟨hn, hlh⟩ | ⟨e, he, hec, het, hdb, hmk, hlh⟩
      · rw [hlh] at hrec
        rw [hn]
        simp only [Option.toList_none, List.nil_append]
        exact hrec
      · rw [hlh] at hrec
        rw [he]
        simp only [Option.toList_some, List.singleton_append]
        by_cases hcc : c = ch
        · subst hcc
          have hupd : upd s.last_hit_ms c t c = t := by simp [upd]
          rw [hupd] at hrec
          rw [eventsOn_cons_self c e _ hec]
          refine ⟨⟨by omega, ?_⟩, ?_⟩
          · rw [het]; exact hrec.1
          · show _ = lastAnchor e.timestamp_ms _
            rw [het]
            exact hrec.2
        · have hupd : upd s.last_hit_ms c t ch = s.last_hit_ms ch := by
            simp only [upd]
            rw [if_neg (fun hh => hcc hh.symm)]
          rw [hupd] at hrec
          rw [eventsOn_cons_other ch e _ (by rw [hec]; exact hcc)]
          exact hrec

theorem run_gap (cfg : SamplerConfig) (channels : List Nat) (ch : Nat) :
    ∀ (ticks : List TickInput) (s : SamplerState),
      gapSep cfg.hit_debounce_ms (s.last_hit_ms ch)
        (eventsOn ch (sampler_run cfg channels s ticks).2) ∧
      (sampler_run cfg channels s ticks).1.last_hit_ms ch
        = lastAnchor (s.last_hit_ms ch) (eventsOn ch (sampler_run cfg channels s ticks).2) := by
  intro ticks
  induction ticks with
  | nil =>
    intro s
    simp [sampler_run, eventsOn, gapSep, lastAnchor]
  | cons tk rest ih =>
    intro s
    have hgo := go_gap cfg tk.read tk.tick_ms ch channels s
    simp only [sampler_run]
    split_ifs with hf
    · exact hgo
    · have ihr := ih (sampler_tick_go cfg tk.read tk.tick_ms s channels).1
      rw [eventsOn_append]
      constructor
      · apply gapSep_append
        · exact hgo.1
        · rw [← hgo.2]; exact ihr.1
      · rw [lastAnchor_append, ← hgo.2]
        exact ihr.2

/-- Claim C7: in any run of the sampling loop, two consecutive hit events
emitted on the same channel are separated by at least the configured
debounce window `hit_debounce_ms`. -/
theorem claim_C7 (cfg : SamplerConfig) (channels : List Nat) (s : SamplerState)
    (ticks : List TickInput) (ch : Nat) :
    List.Chain' (fun a b => b.timestamp_ms - a.timestamp_ms ≥ cfg.hit_debounce_ms)
      (eventsOn ch (sampler_run cfg channels s ticks).2) :=
  gapSep_chain _ _ _ (run_gap cfg channels ch ticks s).1

/-! ### Mask invariants through the tick loop -/

theorem go_mask_const (cfg : SamplerConfig) (read : Nat → Option Int) (t : Int) :
    ∀ (chans : List Nat) (s : SamplerState),
      (sampler_tick_go cfg read t s chans).1.mask_until_ms = s.mask_until_ms := by
  intro chans
  induction chans with
  | nil => intro s; rfl
  | cons c cs ih =>
    intro s
    cases hr : read c with
    | none => simp [sampler_tick_go, hr]
    | some val =>
      simp only [sampler_tick_go, hr]
      rw [ih, pc_mask_const]

theorem run_mask_const (cfg : SamplerConfig) (channels : List Nat) :
    ∀ (ticks : List TickInput) (s : SamplerState),
      (sampler_run cfg channels s ticks).1.mask_until_ms = s.mask_until_ms := by
  intro ticks
  induction ticks with
  | nil => intro s; rfl
  | cons tk rest ih =>
    intro s
    simp only [sampler_run]
    split_ifs with hf
    · exact go_mask_const cfg tk.read tk.tick_ms channels s
    · rw [ih, go_mask_const]

theorem go_event_mask (cfg : SamplerConfig) (read : Nat → Option Int) (t : Int) (ch : Nat) :
    ∀ (chans : List Nat) (s : SamplerState) (e : HitEvent),
      e ∈ (sampler_tick_go cfg read t s chans).2.1 → e.channel = ch →
      s.mask_until_ms ch ≤ e.timestamp_ms := by
  intro chans
  induction chans with
  | nil =>
    intro s e he
    simp [sampler_tick_go] at he
  | cons c cs ih =>
    intro s e he hch
    cases hr : read c with
    | none =>
      rw [show sampler_tick_go cfg read t s (c :: cs) = (s, [], true) by
        simp [sampler_tick_go, hr]] at he
      simp at he
    | some val =>
      have hgo : (sampler_tick_go cfg read t s (c :: cs)).2.1
          = (process_channel cfg s c val t).2.toList
              ++ (sampler_tick_go cfg read t (process_channel cfg s c val t).1 cs).2.1 := by
        simp [sampler_tick_go, hr]
      rw [hgo] at he
      have hmc := pc_mask_const cfg s c val t
      rcases pc_cases cfg s c val t with ⟨hn, _⟩ | ⟨e2, he2, hec, het, _, hmk, _⟩
      · rw [hn] at he
        simp only [Option.toList_none, List.nil_append] at he
        have := ih (process_channel cfg s c val t).1 e he hch
        rwa [hmc] at this
      · rw [he2] at he
        simp only [Option.toList_some, List.singleton_append, List.mem_cons] at he
        rcases he with rfl | he
        · rw [het]
          rw [hch] at hec
          rw [hec]
          exact hmk
        · have := ih (process_channel cfg s c val t).1 e he hch
          rwa [hmc] at this

theorem run_event_mask (cfg : SamplerConfig) (channels : List Nat) (ch : Nat) :
    ∀ (ticks : List TickInput) (s : SamplerState) (e : HitEvent),
      e ∈ (sampler_run cfg channels s ticks).2 → e.channel = ch →
      s.mask_until_ms ch ≤ e.timestamp_ms := by
  intro ticks
  induction ticks with
  | nil =>
    intro s e he
    simp [sampler_run] at he
  | cons tk rest ih =>
    intro s e he hch
    simp only [sampler_run] at he
    split_ifs at he with hf
    · exact go_event_mask cfg tk.read tk.tick_ms ch channels s e he hch
    · simp only [List.mem_append] at he
      rcases he with he | he
      · exact go_event_mask cfg tk.read tk.tick_ms ch channels s e he hch
      · have := ih (sampler_tick_go cfg tk.read tk.tick_ms s channels).1 e he hch
        rwa [go_mask_const] at this

theorem mc_mono : ∀ (chs : List Nat) (s : SamplerState) (d now : Int) (c : Nat),
    s.mask_until_ms c ≤ (mask_channels s chs d now).mask_until_ms c := by
  intro chs
  induction chs with
  | nil => intro s d now c; exact le_refl _
  | cons a l ih =>
    intro s d now c
    rw [mask_channels]
    refine le_trans ?_ (ih _ d now c)
    show s.mask_until_ms c ≤ upd s.mask_until_ms a (max (s.mask_until_ms a) (now + d)) c
    simp only [upd]
    split_ifs with h
    · rw [h]; exact le_max_left _ _
    · exact le_refl _

theorem mc_lb : ∀ (chs : List Nat) (s : SamplerState) (d now : Int) (c : Nat),
    c ∈ chs → now + d ≤ (mask_channels s chs d now).mask_until_ms c := by
  intro chs
  induction chs with
  | nil =>
    intro s d now c hc
    simp at hc
  | cons a l ih =>
    intro s d now c hc
    rw [mask_channels]
    rcases List.mem_cons.mp hc with rfl | hmem
    · refine le_trans ?_ (mc_mono l _ d now c)
      show now + d ≤ upd s.mask_until_ms c (max (s.mask_until_ms c) (now + d)) c
      simp only [upd, if_pos rfl]
      exact le_max_right _ _
    · exact ih _ d now c hmem

/-! ### C8 — masked channels emit no events inside the mask window -/

/-- Claim C8: after `mask_channels(chs, D)` at time `now`, every event
later emitted on a masked channel has a timestamp outside `[now, now+D)`;
in particular no event at all is emitted for that channel inside the mask
window, whatever the subsequent readings. -/
theorem claim_C8 (cfg : SamplerConfig) (channels chs : List Nat) (D now : Int)
    (s : SamplerState) (ticks : List TickInput) (ch : Nat) (e : HitEvent)
    (h1 : ch ∈ chs)
    (h2 : e ∈ (sampler_run cfg channels (mask_channels s chs D now) ticks).2)
    (h3 : e.channel = ch) :
    ¬ (now ≤ e.timestamp_ms ∧ e.timestamp_ms < now + D) := by
  intro hcon
  have hm := run_event_mask cfg channels ch ticks (mask_channels s chs D now) e h2 h3
  have hlb := mc_lb chs s D now ch h1
  omega

/-- Witness for C8: channel 0 masked for 1000 ms at time 0; the tick at
500 ms (raw 1023) emits nothing, the tick at 2000 ms emits `wit_e0`,
whose timestamp lies outside the window `[0, 1000)`. -/
theorem claim_C8_witness :
    (0 ∈ [0]) ∧
    wit_e0 ∈ (sampler_run cfg0 [0] (mask_channels s0 [0] 1000 0) [tk1, tk2]).2 ∧
    wit_e0.channel = 0 ∧
    ¬ (0 ≤ wit_e0.timestamp_ms ∧ wit_e0.timestamp_ms < 0 + 1000) := by
  have hrun : (sampler_run cfg0 [0] (mask_channels s0 [0] 1000 0) [tk1, tk2]).2 = [wit_e0] := by
    norm_num [sampler_run, sampler_tick_go, process_channel, mask_channels, filtered_signal,
      effective_threshold, map_damage, upd, cfg0, s0, tk1, tk2, wit_e0, MIN_DAMAGE, MAX_DAMAGE,
      DAMAGE_DIVISOR]
  refine ⟨by decide, ?_, by decide, ?_⟩
  · rw [hrun]
    exact List.mem_singleton.mpr rfl
  · exact claim_C8 cfg0 [0] [0] 1000 0 s0 [tk1, tk2] 0 wit_e0 (by decide)
      (by rw [hrun]; exact List.mem_singleton.mpr rfl) (by decide)

/-! ### C5 — round output -/

/-- Claim C5, counterexample: two one-tick rounds from the same initial
state end with identical return values (`some player2`) yet different
final hp for player 2 (50 vs 46) — so the value returned by `game_loop`
cannot contain both fighters' final hp; it is the winner identity only. -/
theorem claim_C5_cex :
    (gameLoopRun s5 [iA]).2 = (gameLoopRun s5 [iB]).2 ∧
    ¬ ((gameLoopRun s5 [iA]).1.hp2 = (gameLoopRun s5 [iB]).1.hp2) := by
  constructor <;>
    norm_num [gameLoopRun, gameTick, winCheck, is_knocked_out, driveCommand, limbStep,
      take_damage, calculate_damage, hit_cooldown, attack_duration, s5, cs1, iA, iB, inKO]

/-- Claim C5 as amended: when a fighter's hp reaches 0, the combat loop
terminates on that very tick (later inputs are never consumed) and
returns the winner's identity — and only the winner's identity; the final
hp values live in the fighter state, not in the returned value. -/
theorem claim_C5_amended (s : CombatState) (i : CombatInputs) (rest : List CombatInputs)
    (w : Winner) (h : (gameTick s i).2.winner = some w) :
    gameLoopRun s (i :: rest) = ((gameTick s i).1, some w) := by
  simp [gameLoopRun, h]

/-- Witness for C5 as amended: the lethal tick `iA` ends the round at once
even with further inputs pending. -/
theorem claim_C5_witness :
    (gameTick s5 iA).2.winner = some Winner.player2 ∧
    gameLoopRun s5 [iA, iA] = ((gameTick s5 iA).1, some Winner.player2) := by
  have h : (gameTick s5 iA).2.winner = some Winner.player2 := by
    norm_num [gameTick, winCheck, is_knocked_out, take_damage, calculate_damage,
      hit_cooldown, s5, cs1, iA, inKO]
  exact ⟨h, claim_C5_amended s5 iA [iA] Winner.player2 h⟩

/-! ### C6 — limb attack state machine -/

/-- Claim C6, counterexample: with the attack button held pressed at every
tick (times 0, 0.1, 0.2, 0.3 s, duration 0.15 s), the limb triggers at
tick 0, resets at tick 2, and retriggers at tick 3 — a second
Idle→Swinging transition without any released→pressed edge, refuting
edge-triggering. -/
theorem claim_C6_cex :
    (limbRun attack_duration { attacking := false, timer := 0 }
        [(true, 0), (true, 1 / 10), (true, 2 / 10), (true, 3 / 10)]).2
      = [(true, false), (false, false), (false, true), (true, false)] := by
  norm_num [limbRun, limbStep, attack_duration]

theorem limb_no_retrigger (dur : ℚ) (s : LimbState) (p : Bool) (now : ℚ)
    (h : s.attacking = true) : (limbStep dur s p now).2.1 = false := by
  simp [limbStep, h]
  split_ifs <;> rfl

theorem limb_level_trigger (dur : ℚ) (s : LimbState) (p : Bool) (now : ℚ)
    (h : s.attacking = false) : ((limbStep dur s p now).2.1 = true ↔ p = true) := by
  simp [limbStep, h]
  split_ifs <;> simp

theorem limb_reset_iff (dur : ℚ) (s : LimbState) (p : Bool) (now : ℚ)
    (h : s.attacking = true) :
    ((limbStep dur s p now).2.2 = true ↔ now - s.timer > dur) := by
  simp [limbStep, h]
  split_ifs with hc
  · simpa using hc
  · simpa using hc

theorem limb_reset_window (dur : ℚ) (s : LimbState) (p1 p2 : Bool) (n1 n2 : ℚ)
    (ha : s.attacking = true)
    (h1 : (limbStep dur s p1 n1).2.2 = false)
    (h2 : (limbStep dur s p2 n2).2.2 = true) :
    dur < n2 - s.timer ∧ n2 - s.timer ≤ dur + (n2 - n1) := by
  have hr1 := limb_reset_iff dur s p1 n1 ha
  have hr2 := limb_reset_iff dur s p2 n2 ha
  have hn1 : ¬ n1 - s.timer > dur := by
    intro hgt
    have hx := hr1.mpr hgt
    rw [h1] at hx
    exact Bool.noConfusion hx
  have hn2 : n2 - s.timer > dur := hr2.mp h2
  constructor
  · exact hn2
  · have hle : n1 - s.timer ≤ dur := not_lt.mp hn1
    linarith

theorem limb_reset_idle (dur : ℚ) (s : LimbState) (p : Bool) (now : ℚ)
    (h : (limbStep dur s p now).2.2 = true) :
    (limbStep dur s p now).1.attacking = false := by
  simp only [limbStep] at h ⊢
  split_ifs at h ⊢ <;> simp_all

/-- Claim C6 as amended: the limb attack machine is level-gated, not
edge-triggered: (1) while Swinging no retrigger occurs, whatever the
input; (2) while Idle a pressed level always triggers — no prior release
is required; (3) while Swinging, the reset to neutral fires exactly on a
tick whose elapsed time strictly exceeds the configured duration; (4) the
elapsed time at the reset tick exceeds the duration by at most one tick
gap (the reset tick is the first whose elapsed time exceeds it); (5) a
reset returns the limb to Idle. -/
theorem claim_C6_amended :
    (∀ (dur : ℚ) (s : LimbState) (p : Bool) (now : ℚ), s.attacking = true →
        (limbStep dur s p now).2.1 = false) ∧
    (∀ (dur : ℚ) (s : LimbState) (p : Bool) (now : ℚ), s.attacking = false →
        ((limbStep dur s p now).2.1 = true ↔ p = true)) ∧
    (∀ (dur : ℚ) (s : LimbState) (p : Bool) (now : ℚ), s.attacking = true →
        ((limbStep dur s p now).2.2 = true ↔ now - s.timer > dur)) ∧
    (∀ (dur : ℚ) (s : LimbState) (p1 p2 : Bool) (n1 n2 : ℚ), s.attacking = true →
        (limbStep dur s p1 n1).2.2 = false → (limbStep dur s p2 n2).2.2 = true →
        dur < n2 - s.timer ∧ n2 - s.timer ≤ dur + (n2 - n1)) ∧
    (∀ (dur : ℚ) (s : LimbState) (p : Bool) (now : ℚ),
        (limbStep dur s p now).2.2 = true → (limbStep dur s p now).1.attacking = false) :=
  ⟨limb_no_retrigger, limb_level_trigger, limb_reset_iff, limb_reset_window, limb_reset_idle⟩

/-- Witness for C6 as amended at concrete inputs: a swinging limb (start
time 0) neither retriggers at time 1 nor stays swinging (1 - 0 > 0.15);
with a non-resetting tick at 0.1 s and a resetting tick at 2 s the elapsed
time lies in (duration, duration + gap]. -/
theorem claim_C6_witness :
    (limbStep attack_duration ⟨true, 0⟩ true 1).2.1 = false ∧
    ((limbStep attack_duration ⟨true, 0⟩ true 1).2.2 = true ↔
      (1 : ℚ) - (0 : ℚ) > attack_duration) ∧
    (attack_duration < (2 : ℚ) - (0 : ℚ) ∧
      (2 : ℚ) - (0 : ℚ) ≤ attack_duration + ((2 : ℚ) - 1 / 10)) := by
  refine ⟨claim_C6_amended.1 attack_duration ⟨true, 0⟩ true 1 rfl, ?_, ?_⟩
  · exact claim_C6_amended.2.2.1 attack_duration ⟨true, 0⟩ true 1 rfl
  · exact claim_C6_amended.2.2.2.1 attack_duration ⟨true, 0⟩ true true (1 / 10) 2 rfl
      (by norm_num [limbStep, attack_duration]) (by norm_num [limbStep, attack_duration])
